import Mathlib

/-!
Verification of the job-search orchestration behavior of project-taylor.

The executable code deciding the claims lives in src/frontend/dashboard.js
(the validation functions, the request construction that fixes
total_jobs_requested at 100, and generateMockJobResults, the session entry
point actually shipped — the backend job-scraper service exists in the
repository only as a README).  Those functions are embedded below as Lean
functions over `List Char` strings.  Components that the repository only
documents (the Cost Ledger and the composite-key deduplication of
job_distributor.py) are modelled from the spec and marked as such.
-/

namespace ProjectTaylor

/-- JS strings are modelled as lists of characters. -/
abbrev Str := List Char

/-- Embedding of String.prototype.toLowerCase (ASCII range, which covers every
string literal appearing in dashboard.js). -/
def lowerStr (s : Str) : Str := s.map Char.toLower

/-- The characters of the JS \s class handled by this embedding (the ASCII
whitespace actually occurring in the dashboard's inputs). -/
def isWs (c : Char) : Bool :=
  c == ' ' || c == '\t' || c == '\n' || c == '\r' || c == '\x0b' || c == '\x0c'

/-- Embedding of String.prototype.trim: drop whitespace from both ends. -/
def trimStr (s : Str) : Str :=
  ((s.dropWhile isWs).reverse.dropWhile isWs).reverse

/-- leadsWith n h is true when the list n occurs at the start of h. -/
def leadsWith : Str → Str → Bool
  | [], _ => true
  | _ :: _, [] => false
  | c :: cs, d :: ds => c == d && leadsWith cs ds

/-- Embedding of JS String.prototype.includes: n occurs somewhere in h. -/
def hasSub (n : Str) : Str → Bool
  | [] => leadsWith n []
  | c :: cs => leadsWith n (c :: cs) || hasSub n cs

/-- Strip the literal p from the front of s, returning the remainder. -/
def stripLit : Str → Str → Option Str
  | [], s => some s
  | _ :: _, [] => none
  | c :: cs, d :: ds => if d = c then stripLit cs ds else none

/-- The character class [a-zA-Z0-9-] of the LinkedIn profile regex. -/
def isHandleChar (c : Char) : Bool := c.isAlpha || c.isDigit || c == '-'

/-- Tail of the handle part of the regex: zero or more [a-zA-Z0-9-] characters
followed by an optional single '/' and then the end of the string. -/
def handleTail : Str → Bool
  | [] => true
  | ['/'] => true
  | c :: cs => isHandleChar c && handleTail cs

/-- The regex fragment [a-zA-Z0-9-]+/?$ : at least one handle character. -/
def handlePart : Str → Bool
  | [] => false
  | c :: cs => isHandleChar c && handleTail cs

/-- The regex fragment linkedin\.com/in/[a-zA-Z0-9-]+/?$ . -/
def linkedinTail (s : Str) : Bool :=
  match stripLit "linkedin.com/in/".data s with
  | some r => handlePart r
  | none => false

/-- Embedding of the anchored regex ^https://(www\.)?linkedin\.com/in/[a-zA-Z0-9-]+/?$
from dashboard.js line 11.  The optional (www\.)? group is an alternation tried
both ways; no other backtracking can arise because the continuation after the
group starts with the literal 'l', never a handle character of 'www.'. -/
def linkedinPattern (s : Str) : Bool :=
  match stripLit "https://".data s with
  | some r =>
    linkedinTail r ||
      (match stripLit "www.".data r with
       | some r2 => linkedinTail r2
       | none => false)
  | none => false

/-- The linkedin entry of VALIDATION_RULES (dashboard.js 9-13). -/
structure LinkedInRules where
  minLength : Nat
  pattern : Str → Bool
  message : Str

/-- A story/resume entry of VALIDATION_RULES (dashboard.js 14-23). -/
structure WordRules where
  minWords : Nat
  maxWords : Nat
  message : Str

/-- The VALIDATION_RULES object (dashboard.js 8-24). -/
structure ValidationRules where
  linkedin : LinkedInRules
  story : WordRules
  resume : WordRules

/-- Embedding of the VALIDATION_RULES constant of dashboard.js lines 8-24. -/
def VALIDATION_RULES : ValidationRules :=
  { linkedin :=
      { minLength := 20
        pattern := linkedinPattern
        message := "Please enter a valid LinkedIn profile URL (e.g., https://linkedin.com/in/username)".data }
    story :=
      { minWords := 50
        maxWords := 5000
        message := "Personal story should be between 50 and 5000 words".data }
    resume :=
      { minWords := 100
        maxWords := 2000
        message := "Resume should be between 100 and 2000 words".data } }

/-- Embedding of validateLinkedIn (dashboard.js 27-33).  The rules parameter
stands for the read of the global VALIDATION_RULES.linkedin; JS !url is true
exactly on the empty string. -/
def validateLinkedIn (rules : LinkedInRules) (url : Str) : Option Str :=
  if url = [] then some "LinkedIn URL is required".data
  else if !(rules.pattern url) then some rules.message
  else none

/-- Decimal rendering of a natural number, the embedding of JS template
interpolation of a number. -/
def natStr (n : Nat) : Str := (Nat.repr n).data

/-- Maximal non-whitespace runs of s.  For a trimmed non-empty string this is
exactly JS s.split(/\s+/) (which yields no empty tokens in that case). -/
def wordsOf (s : Str) : List Str :=
  (s.splitOnP isWs).filter (fun w => !w.isEmpty)

/-- Embedding of resume.trim().split(/\s+/).length (dashboard.js 37 and 49).
JS "".split(/\s+/) is [""], a one-element array, so an all-whitespace input
counts as 1; otherwise the split of the trimmed string yields its maximal
non-whitespace runs. -/
def jsWordCount (s : Str) : Nat :=
  let t := trimStr s
  if t.isEmpty then 1 else (wordsOf t).length

/-- Embedding of validateResume (dashboard.js 47-57).  The rules parameter
stands for the read of the global VALIDATION_RULES.resume. -/
def validateResume (rules : WordRules) (resume : Str) : Option Str :=
  if resume = [] then some "Resume is required".data
  else
    let words := jsWordCount resume
    if words < rules.minWords then
      some ("Resume is too short (minimum ".data ++ natStr rules.minWords ++ " words)".data)
    else if rules.maxWords < words then
      some ("Resume is too long (maximum ".data ++ natStr rules.maxWords ++ " words)".data)
    else none

/-- Embedding of validateStory (dashboard.js 35-45), included for completeness
of the VALIDATION_RULES embedding. -/
def validateStory (rules : WordRules) (story : Str) : Option Str :=
  if story = [] then some "Personal story is required".data
  else
    let words := jsWordCount story
    if words < rules.minWords then
      some ("Personal story is too short (minimum ".data ++ natStr rules.minWords ++ " words)".data)
    else if rules.maxWords < words then
      some ("Personal story is too long (maximum ".data ++ natStr rules.maxWords ++ " words)".data)
    else none

/-- A career path as selected in the dashboard: title and keyword list
(dashboard.js 323-329 and 488-492). -/
structure CareerPath where
  title : Str
  keywords : List Str
deriving DecidableEq

/-- The salary_range object of a generated job (dashboard.js 679-683). -/
structure SalaryRange where
  min : Nat
  max : Nat
  currency : Str
deriving DecidableEq

/-- A job record as generated by generateMockJobResults (dashboard.js 672-684). -/
structure MockJob where
  title : Str
  company : Str
  location : Str
  description : Str
  url : Str
  posted_date : Str
  salary_range : SalaryRange
deriving DecidableEq

/-- An allocation_summary entry {requested, found} (dashboard.js 664-667). -/
structure PathAlloc where
  requested : Nat
  found : Nat
deriving DecidableEq

/-- The search_metadata object of the result (dashboard.js 695-699). -/
structure SearchMetadata where
  search_strategy : Str
  deduplication : Str
  paths_searched : Nat
deriving DecidableEq

/-- The property names of the search_metadata object literal returned by
generateMockJobResults (dashboard.js 695-699), recorded so that shape claims
about the returned JS object can be stated. -/
def searchMetadataKeys : List Str :=
  ["search_strategy".data, "deduplication".data, "paths_searched".data]

/-- The object returned by generateMockJobResults (dashboard.js 691-700).  The
two JS objects keyed by path title are modelled as insertion-ordered
association lists, matching JS property enumeration order. -/
structure MockJobResults where
  allocation_summary : List (Str × PathAlloc)
  jobs_by_path : List (Str × List MockJob)
  total_jobs_found : Nat
  search_metadata : SearchMetadata
deriving DecidableEq

/-- The nondeterministic inputs of generateMockJobResults, as functions of the
path position and the loop index: the Math.floor(Math.random()*50)+1 company
number (line 674), the two Math.floor(Math.random()*k) salary steps (lines
680-681), and the Date.now()/Math.random() derived posted date (line 678).
Quantifying the theorems over this environment quantifies them over every
possible random draw. -/
structure MockEnv where
  companyNum : Nat → Nat → Nat
  salaryMinStep : Nat → Nat → Nat
  salaryMaxStep : Nat → Nat → Nat
  postedDate : Nat → Nat → Str

/-- Embedding of Array.prototype.join(', ') (dashboard.js 676). -/
def joinComma : List Str → Str
  | [] => []
  | [k] => k
  | k :: ks => k ++ ", ".data ++ joinComma ks

/-- State-machine pass behind slugOf: each maximal whitespace run becomes a
single '-', the effect of String.prototype.replace(/\s+/g, '-'). -/
def dashWsGo (prevWs : Bool) : Str → Str
  | [] => []
  | c :: cs =>
    if isWs c then
      (if prevWs then [] else ['-']) ++ dashWsGo true cs
    else c :: dashWsGo false cs

/-- Embedding of path.title.toLowerCase().replace(/\s+/g, '-') (dashboard.js
line 677). -/
def slugOf (s : Str) : Str := dashWsGo false (lowerStr s)

/-- Embedding of the job object pushed at dashboard.js 672-684 for loop index i
(the interpolated position number is i + 1).  The JS guard
`path.keywords ? ... : 'various technologies'` always takes the first branch
here because keywords is a genuine (possibly empty) list in this model. -/
def mkJob (env : MockEnv) (p : CareerPath) (pidx i : Nat) : MockJob :=
  { title := p.title ++ " - Position ".data ++ natStr (i + 1)
    company := "Company ".data ++ natStr (env.companyNum pidx i)
    location := "Remote".data
    description := "Exciting opportunity for a ".data ++ p.title
      ++ " with experience in ".data ++ joinComma p.keywords ++ ".".data
    url := "https://example.com/jobs/".data ++ slugOf p.title ++ "-".data ++ natStr (i + 1)
    posted_date := env.postedDate pidx i
    salary_range :=
      { min := 80000 + env.salaryMinStep pidx i * 10000
        max := 150000 + env.salaryMaxStep pidx i * 10000
        currency := "USD".data } }

/-- The found count of the path at position idx out of n (dashboard.js
654-662).  Math.floor(100 / n) is exact natural division; for every value
requested = Math.floor(100/n) <= 100 the double computation
Math.floor(requested * 0.3) equals the exact floor of 3*requested/10 (the
rounding error of the product is below half an ulp of the exact value, so the
product rounds to the nearest double of 3*requested/10 and never crosses an
integer boundary). -/
def pathFound (n idx : Nat) (p : CareerPath) : Nat :=
  if hasSub "junior".data (lowerStr p.title) || idx == 0 then 100 / n * 3 / 10
  else if idx == n - 1 then 100 / n + 20
  else 100 / n

/-- One iteration of the forEach body of generateMockJobResults (dashboard.js
653-688): the title key, the allocation_summary entry and the generated job
list of the path at position idx. -/
def pathRow (env : MockEnv) (n idx : Nat) (p : CareerPath) :
    Str × PathAlloc × List MockJob :=
  (p.title,
   { requested := 100 / n, found := pathFound n idx p },
   (List.range (pathFound n idx p)).map (fun i => mkJob env p idx i))

/-- The rows produced by the forEach loop, in iteration order. -/
def buildRows (env : MockEnv) (n : Nat) : Nat → List CareerPath →
    List (Str × PathAlloc × List MockJob)
  | _, [] => []
  | idx, p :: rest => pathRow env n idx p :: buildRows env n idx.succ rest

/-- Embedding of JS object property assignment m[k] = v: an existing key keeps
its position and is overwritten, a new key is appended. -/
def setKey (k : Str) (v : α) : List (Str × α) → List (Str × α)
  | [] => [(k, v)]
  | (k2, v2) :: m => if k2 = k then (k, v) :: m else (k2, v2) :: setKey k v m

/-- Embedding of JS object property lookup m[k]. -/
def lookupKey (k : Str) : List (Str × α) → Option α
  | [] => none
  | (k2, v) :: m => if k2 = k then some v else lookupKey k m

/-- Embedding of generateMockJobResults (dashboard.js 647-701).  The JS loop
writes allocation_summary[path.title], jobs_by_path[path.title] and the running
total in a single pass; no iteration reads the accumulators, so building the
per-iteration rows first and folding them into each object is the same
function. -/
def generateMockJobResults (env : MockEnv) (careerPaths : List CareerPath) :
    MockJobResults :=
  let n := careerPaths.length
  let rows := buildRows env n 0 careerPaths
  { allocation_summary := rows.foldl (fun m r => setKey r.1 r.2.1 m) []
    jobs_by_path := rows.foldl (fun m r => setKey r.1 r.2.2 m) []
    total_jobs_found := (rows.map (fun r => r.2.1.found)).sum
    search_metadata :=
      { search_strategy := "smart_distribution".data
        deduplication := "first_path".data
        paths_searched := n } }

/-- Sum of the found fields over the entries of an allocation summary. -/
def sumFound (m : List (Str × PathAlloc)) : Nat :=
  (m.map (fun e => e.2.found)).sum

/-- Modelled from the spec: the url-without-query-string normalization of the
composite dedup key (spec section 3) — the characters before the first '?'.
The deduplication code itself (job_distributor.py of the job-scraper service)
is documented in the repository only by its README and is not among the
sources. -/
def stripQuery (s : Str) : Str := s.takeWhile (fun c => !(c == '?'))

/-- Modelled from the spec: the normalized composite key of a job record —
lower-cased title, lower-cased company, url without its query string (spec
section 3). -/
def MockJob.key (j : MockJob) : Str × Str × Str :=
  (lowerStr j.title, lowerStr j.company, stripQuery j.url)

/-- Modelled from the spec: a StandardizedJob record (spec section 3).  The
job-scraper service that produces these exists in the repository only as a
README. -/
structure StandardizedJob where
  title : Str
  company : Str
  location : Str
  description : Str
  url : Str
  posted_date : Str
  salary_range : Option SalaryRange
  source_provider_id : Str
deriving DecidableEq

/-- Modelled from the spec: the composite dedup key of a StandardizedJob. -/
def StandardizedJob.key (j : StandardizedJob) : Str × Str × Str :=
  (lowerStr j.title, lowerStr j.company, stripQuery j.url)

/-- Modelled from the spec: first-seen deduplication by key, carrying the set
of keys already kept (spec section 4.4: within a merged result list, jobs are
deduplicated by composite key, keeping the first-seen instance). -/
def dedupByKeyGo [DecidableEq κ] (key : α → κ) (seen : List κ) : List α → List α
  | [] => []
  | x :: xs =>
    if key x ∈ seen then dedupByKeyGo key seen xs
    else x :: dedupByKeyGo key (key x :: seen) xs

/-- Modelled from the spec: deduplication of a result list by composite key,
keeping the first-seen record. -/
def dedupByKey [DecidableEq κ] (key : α → κ) (l : List α) : List α :=
  dedupByKeyGo key [] l

/-- Modelled from the spec: the Cost Ledger of one search session — a mutable
counter {spent, ceiling} (spec sections 3 and 4.2).  The executor code holding
it (job-scraper service) is not among the sources. -/
structure CostLedger where
  spent : ℚ
  ceiling : ℚ
deriving DecidableEq

/-- Modelled from the spec: reserve(amount) -> (granted, remaining) — an atomic
compare-and-reserve that grants exactly when the new spend stays within the
ceiling, and rejects (leaving the ledger unchanged) otherwise. -/
def CostLedger.reserve (l : CostLedger) (amount : ℚ) : (Bool × ℚ) × CostLedger :=
  if l.spent + amount ≤ l.ceiling then
    ((true, l.ceiling - (l.spent + amount)), { l with spent := l.spent + amount })
  else
    ((false, l.ceiling - l.spent), l)

/-- Modelled from the spec: a serial execution of a list of reserve calls.
Because reserve is specified as atomic, every concurrent execution of a set of
reserve calls is equivalent to executing them in some serial order, so
quantifying over all call sequences quantifies over all interleavings. -/
def runReserves (l : CostLedger) : List ℚ → List Bool × CostLedger
  | [] => ([], l)
  | a :: as =>
    let r := l.reserve a
    let rest := runReserves r.2 as
    (r.1.1 :: rest.1, rest.2)

/-- A fixed environment for concrete evaluations: every random draw is the
constant draw. -/
def constEnv : MockEnv :=
  { companyNum := fun _ _ => 1
    salaryMinStep := fun _ _ => 0
    salaryMaxStep := fun _ _ => 0
    postedDate := fun _ _ => "2025-06-20".data }

/-- The first mock career path offered by the dashboard (dashboard.js 423-427). -/
def tpmPath : CareerPath :=
  { title := "Technical Project Manager".data
    keywords := ["Agile".data, "Team Leadership".data, "Scrum".data, "MERN Stack".data] }

/-- The second mock career path (dashboard.js 428-432). -/
def sfePath : CareerPath :=
  { title := "Senior Front-End Engineer".data
    keywords := ["React".data, "TypeScript".data, "Performance".data, "CI/CD".data] }

/-- The third mock career path (dashboard.js 433-437). -/
def fsdPath : CareerPath :=
  { title := "Full-Stack Developer".data
    keywords := ["JavaScript".data, "Node.js".data, "Database Design".data, "API Development".data] }

/-- The fourth mock career path (dashboard.js 438-442). -/
def devopsPath : CareerPath :=
  { title := "DevOps Engineer".data
    keywords := ["Docker".data, "Kubernetes".data, "AWS".data, "CI/CD Pipelines".data] }

/-- The four mock career paths offered by the dashboard (dashboard.js 421-444). -/
def mockPaths : List CareerPath := [tpmPath, sfePath, fsdPath, devopsPath]

/-- The first two mock career paths, a concrete two-path session. -/
def twoPaths : List CareerPath := [tpmPath, sfePath]

/-- The first mock career path alone, a concrete one-path session. -/
def onePath : List CareerPath := [tpmPath]

/-- A concrete standardized job, as a government-jobs provider would return it. -/
def dupJobA : StandardizedJob :=
  { title := "Software Developer".data
    company := "ACME Corp".data
    location := "Remote".data
    description := "Build software".data
    url := "https://jobs.example.com/listing/42?src=usajobs".data
    posted_date := "2025-06-18".data
    salary_range := some { min := 90000, max := 140000, currency := "USD".data }
    source_provider_id := "usajobs".data }

/-- The same listing as dupJobA returned by a different provider: the titles and
companies agree and the urls differ only in their query strings, so the
composite keys coincide while the records differ. -/
def dupJobB : StandardizedJob :=
  { title := "Software Developer".data
    company := "ACME Corp".data
    location := "Remote".data
    description := "Build software at ACME".data
    url := "https://jobs.example.com/listing/42?src=serper&r=2".data
    posted_date := "2025-06-19".data
    salary_range := none
    source_provider_id := "serper".data }

/-- A 100-word resume text: one hundred repetitions of a word and a space. -/
def resumeText : Str := (List.replicate 100 "word ".data).flatten

/-! ### Helper lemmas about the embedding -/

theorem setKey_mem {α} {k : Str} {v : α} {m : List (Str × α)} {e : Str × α}
    (h : e ∈ setKey k v m) : e = (k, v) ∨ e ∈ m := by
  induction m with
  | nil =>
    simp only [setKey, List.mem_singleton] at h
    exact Or.inl h
  | cons kv m ih =>
    obtain ⟨k2, v2⟩ := kv
    simp only [setKey] at h
    split at h
    · rcases List.mem_cons.mp h with h | h
      · exact Or.inl h
      · exact Or.inr (List.mem_cons_of_mem _ h)
    · rcases List.mem_cons.mp h with h | h
      · exact Or.inr (h ▸ List.mem_cons_self _ _)
      · rcases ih h with h | h
        · exact Or.inl h
        · exact Or.inr (List.mem_cons_of_mem _ h)

theorem mem_foldl_setKey {ρ α : Type} (key : ρ → Str) (f : ρ → α) :
    ∀ (rows : List ρ) (acc : List (Str × α)) (e : Str × α),
      e ∈ rows.foldl (fun m r => setKey (key r) (f r) m) acc →
      e ∈ acc ∨ ∃ r ∈ rows, e = (key r, f r) := by
  intro rows
  induction rows with
  | nil =>
    intro acc e h
    exact Or.inl (by simpa using h)
  | cons r rs ih =>
    intro acc e h
    simp only [List.foldl_cons] at h
    rcases ih _ _ h with h | ⟨r2, hr2, he⟩
    · rcases setKey_mem h with h | h
      · exact Or.inr ⟨r, List.mem_cons_self _ _, h⟩
      · exact Or.inl h
    · exact Or.inr ⟨r2, List.mem_cons_of_mem _ hr2, he⟩

theorem setKey_fresh {α} {k : Str} (v : α) {m : List (Str × α)}
    (h : k ∉ m.map Prod.fst) : setKey k v m = m ++ [(k, v)] := by
  induction m with
  | nil => rfl
  | cons kv m ih =>
    obtain ⟨k2, v2⟩ := kv
    simp only [List.map_cons, List.mem_cons] at h
    push_neg at h
    have hne : ¬ k2 = k := fun hh => h.1 hh.symm
    simp [setKey, hne, ih h.2]

theorem foldl_setKey_nodup {ρ α : Type} (key : ρ → Str) (f : ρ → α) :
    ∀ (rows : List ρ) (acc : List (Str × α)),
      (acc.map Prod.fst ++ rows.map key).Nodup →
      rows.foldl (fun m r => setKey (key r) (f r) m) acc
        = acc ++ rows.map (fun r => (key r, f r)) := by
  intro rows
  induction rows with
  | nil => intro acc _; simp
  | cons r rs ih =>
    intro acc h
    have h2 := List.nodup_append.mp h
    have hk : key r ∉ acc.map Prod.fst := by
      intro hmem
      exact h2.2.2 hmem (List.mem_cons_self _ _)
    simp only [List.foldl_cons, List.map_cons]
    rw [setKey_fresh _ hk, ih]
    · simp
    · simpa [List.append_assoc] using h

theorem buildRows_keys (env : MockEnv) (n : Nat) :
    ∀ (idx : Nat) (ps : List CareerPath),
      (buildRows env n idx ps).map Prod.fst = ps.map (·.title) := by
  intro idx ps
  induction ps generalizing idx with
  | nil => rfl
  | cons p ps ih => simp [buildRows, pathRow, ih]

theorem mem_buildRows {env : MockEnv} {n : Nat}
    {r : Str × PathAlloc × List MockJob} :
    ∀ {idx : Nat} {ps : List CareerPath}, r ∈ buildRows env n idx ps →
      ∃ j p, p ∈ ps ∧ r = pathRow env n j p := by
  intro idx ps
  induction ps generalizing idx with
  | nil => intro h; simp [buildRows] at h
  | cons p ps ih =>
    intro h
    simp only [buildRows] at h
    rcases List.mem_cons.mp h with h | h
    · exact ⟨idx, p, List.mem_cons_self _ _, h⟩
    · rcases ih h with ⟨j, q, hq, he⟩
      exact ⟨j, q, List.mem_cons_of_mem _ hq, he⟩

theorem sumFound_setKey_le (k : Str) (v : PathAlloc) (m : List (Str × PathAlloc)) :
    sumFound (setKey k v m) ≤ sumFound m + v.found := by
  induction m with
  | nil => simp [setKey, sumFound]
  | cons kv m ih =>
    obtain ⟨k2, v2⟩ := kv
    by_cases hk : k2 = k
    · simp only [setKey, if_pos hk, sumFound, List.map_cons, List.sum_cons]
      omega
    · simp only [setKey, if_neg hk, sumFound, List.map_cons, List.sum_cons]
      simp only [sumFound] at ih
      omega

theorem sumFound_foldl_le :
    ∀ (rows : List (Str × PathAlloc × List MockJob)) (acc : List (Str × PathAlloc)),
      sumFound (rows.foldl (fun m r => setKey r.1 r.2.1 m) acc)
        ≤ sumFound acc + (rows.map (fun r => r.2.1.found)).sum := by
  intro rows
  induction rows with
  | nil => intro acc; simp
  | cons r rs ih =>
    intro acc
    simp only [List.foldl_cons, List.map_cons, List.sum_cons]
    have h1 := ih (setKey r.1 r.2.1 acc)
    have h2 := sumFound_setKey_le r.1 r.2.1 acc
    omega

theorem pathFound_le_120 (n idx : Nat) (p : CareerPath) : pathFound n idx p ≤ 120 := by
  have hq : 100 / n ≤ 100 := Nat.div_le_self _ _
  have h3 : 100 / n * 3 / 10 ≤ 300 / 10 :=
    Nat.div_le_div_right (by omega)
  unfold pathFound
  split
  · omega
  · split
    · omega
    · omega

set_option maxRecDepth 4000 in
theorem lowerNat_nodup :
    ((List.range 120).map (fun i => lowerStr (natStr (i + 1)))).Nodup := by decide

theorem lowerNat_inj {i j : Nat} (hi : i < 120) (hj : j < 120)
    (h : lowerStr (natStr (i + 1)) = lowerStr (natStr (j + 1))) : i = j :=
  List.inj_on_of_nodup_map lowerNat_nodup (List.mem_range.mpr hi)
    (List.mem_range.mpr hj) h

theorem mkJob_key_inj (env : MockEnv) (p : CareerPath) (pidx : Nat) {i j : Nat}
    (hi : i < 120) (hj : j < 120)
    (h : (mkJob env p pidx i).key = (mkJob env p pidx j).key) : i = j := by
  have h1 : lowerStr (mkJob env p pidx i).title = lowerStr (mkJob env p pidx j).title :=
    congrArg (fun k => k.1) h
  simp only [mkJob, lowerStr, List.map_append, List.append_assoc] at h1
  exact lowerNat_inj hi hj (List.append_cancel_left (List.append_cancel_left h1))

theorem pathJobs_keys_nodup (env : MockEnv) (p : CareerPath) (pidx : Nat)
    {found : Nat} (hf : found ≤ 120) :
    (((List.range found).map (fun i => mkJob env p pidx i)).map MockJob.key).Nodup := by
  rw [List.map_map]
  refine List.Nodup.map_on ?_ (List.nodup_range _)
  intro x hx y hy hxy
  exact mkJob_key_inj env p pidx
    (lt_of_lt_of_le (List.mem_range.mp hx) hf)
    (lt_of_lt_of_le (List.mem_range.mp hy) hf) hxy

theorem dedupByKeyGo_eq_self {α κ : Type} [DecidableEq κ] (key : α → κ) :
    ∀ (l : List α) (seen : List κ), (l.map key).Nodup →
      (∀ x ∈ l, key x ∉ seen) → dedupByKeyGo key seen l = l := by
  intro l
  induction l with
  | nil => intro seen _ _; rfl
  | cons x xs ih =>
    intro seen hnd hseen
    rw [List.map_cons] at hnd
    have hnd2 := List.nodup_cons.mp hnd
    simp only [dedupByKeyGo]
    rw [if_neg (hseen x (List.mem_cons_self _ _))]
    congr 1
    refine ih _ hnd2.2 ?_
    intro y hy hmem
    rcases List.mem_cons.mp hmem with he | hs
    · exact hnd2.1 (he ▸ List.mem_map_of_mem key hy)
    · exact hseen y (List.mem_cons_of_mem _ hy) hs

theorem dedup_row_jobs (env : MockEnv) (n idx : Nat) (p : CareerPath) :
    dedupByKey MockJob.key ((pathRow env n idx p).2.2) = (pathRow env n idx p).2.2 := by
  refine dedupByKeyGo_eq_self MockJob.key _ []
    (pathJobs_keys_nodup env p idx (pathFound_le_120 n idx p)) ?_
  simp

theorem countP_dedupByKeyGo {α κ : Type} [DecidableEq κ] (key : α → κ) (k : κ) :
    ∀ (l : List α) (seen : List κ),
      (dedupByKeyGo key seen l).countP (fun x => decide (key x = k))
        = if k ∈ seen then 0 else if k ∈ l.map key then 1 else 0 := by
  intro l
  induction l with
  | nil =>
    intro seen
    simp [dedupByKeyGo]
  | cons x xs ih =>
    intro seen
    simp only [dedupByKeyGo]
    by_cases hx : key x ∈ seen
    · rw [if_pos hx, ih]
      by_cases hk : k ∈ seen
      · simp [hk]
      · have hne : ¬ k = key x := fun he => hk (he ▸ hx)
        simp [hk, hne]
    · rw [if_neg hx]
      rw [List.countP_cons, ih]
      by_cases hk : k ∈ seen
      · have hne : ¬ k = key x := fun he => hx (he ▸ hk)
        have hne2 : ¬ key x = k := fun he => hne he.symm
        simp [hk, hne, hne2]
      · by_cases hkx : k = key x
        · simp [hk, hkx, hx]
        · have hne2 : ¬ key x = k := fun he => hkx he.symm
          simp [hk, hkx, hne2]

theorem allocation_summary_eq (env : MockEnv) (ps : List CareerPath)
    (h : (ps.map (·.title)).Nodup) :
    (generateMockJobResults env ps).allocation_summary
      = (buildRows env ps.length 0 ps).map (fun r => (r.1, r.2.1)) := by
  have hk : ((buildRows env ps.length 0 ps).map Prod.fst).Nodup := by
    rw [buildRows_keys]; exact h
  have := foldl_setKey_nodup Prod.fst (fun r => r.2.1)
    (buildRows env ps.length 0 ps) [] (by simpa using hk)
  simpa [generateMockJobResults] using this

theorem jobs_by_path_eq (env : MockEnv) (ps : List CareerPath)
    (h : (ps.map (·.title)).Nodup) :
    (generateMockJobResults env ps).jobs_by_path
      = (buildRows env ps.length 0 ps).map (fun r => (r.1, r.2.2)) := by
  have hk : ((buildRows env ps.length 0 ps).map Prod.fst).Nodup := by
    rw [buildRows_keys]; exact h
  have := foldl_setKey_nodup Prod.fst (fun r => r.2.2)
    (buildRows env ps.length 0 ps) [] (by simpa using hk)
  simpa [generateMockJobResults] using this

theorem row_jobs_length (env : MockEnv) (n idx : Nat) (p : CareerPath) :
    ((pathRow env n idx p).2.2).length = (pathRow env n idx p).2.1.found := by
  simp [pathRow]

theorem jobs_length_eq_found (env : MockEnv) (ps : List CareerPath)
    (h : (ps.map (·.title)).Nodup) :
    ∀ t a jobs, (t, a) ∈ (generateMockJobResults env ps).allocation_summary →
      (t, jobs) ∈ (generateMockJobResults env ps).jobs_by_path →
      jobs.length = a.found := by
  intro t a jobs ha hj
  rw [allocation_summary_eq env ps h] at ha
  rw [jobs_by_path_eq env ps h] at hj
  rcases List.mem_map.mp ha with ⟨r1, hr1, he1⟩
  rcases List.mem_map.mp hj with ⟨r2, hr2, he2⟩
  have hnd : ((buildRows env ps.length 0 ps).map Prod.fst).Nodup := by
    rw [buildRows_keys]; exact h
  have hfst : r1.1 = r2.1 := by
    have e1 := congrArg Prod.fst he1
    have e2 := congrArg Prod.fst he2
    simp at e1 e2
    rw [e1, e2]
  have hr12 : r1 = r2 := List.inj_on_of_nodup_map hnd hr1 hr2 hfst
  subst hr12
  have ea : a = r1.2.1 := by
    have := congrArg Prod.snd he1
    simpa using this.symm
  have ej : jobs = r1.2.2 := by
    have := congrArg Prod.snd he2
    simpa using this.symm
  subst ea ej
  rcases mem_buildRows hr1 with ⟨j, p, _, rfl⟩
  exact row_jobs_length env ps.length j p

theorem total_eq_sumFound (env : MockEnv) (ps : List CareerPath)
    (h : (ps.map (·.title)).Nodup) :
    (generateMockJobResults env ps).total_jobs_found
      = sumFound (generateMockJobResults env ps).allocation_summary := by
  rw [allocation_summary_eq env ps h]
  simp only [generateMockJobResults, sumFound, List.map_map]
  rfl

theorem summary_keys (env : MockEnv) (ps : List CareerPath)
    (h : (ps.map (·.title)).Nodup) :
    (generateMockJobResults env ps).allocation_summary.map Prod.fst
      = ps.map (·.title) := by
  rw [allocation_summary_eq env ps h]
  rw [List.map_map]
  have : (Prod.fst ∘ fun r : Str × PathAlloc × List MockJob => (r.1, r.2.1))
      = Prod.fst := rfl
  rw [this, buildRows_keys]

theorem byPath_keys (env : MockEnv) (ps : List CareerPath)
    (h : (ps.map (·.title)).Nodup) :
    (generateMockJobResults env ps).jobs_by_path.map Prod.fst
      = ps.map (·.title) := by
  rw [jobs_by_path_eq env ps h]
  rw [List.map_map]
  have : (Prod.fst ∘ fun r : Str × PathAlloc × List MockJob => (r.1, r.2.2))
      = Prod.fst := rfl
  rw [this, buildRows_keys]

theorem runReserves_invariant :
    ∀ (as : List ℚ) (l : CostLedger), l.spent ≤ l.ceiling →
      (runReserves l as).2.spent ≤ (runReserves l as).2.ceiling
      ∧ (runReserves l as).2.ceiling = l.ceiling := by
  intro as
  induction as with
  | nil => intro l h; exact ⟨h, rfl⟩
  | cons a as ih =>
    intro l h
    by_cases hc : l.spent + a ≤ l.ceiling
    · simp only [runReserves, CostLedger.reserve, if_pos hc]
      exact ih _ hc
    · simp only [runReserves, CostLedger.reserve, if_neg hc]
      exact ih _ h

theorem rowsFound_le_100 (env : MockEnv) :
    ∀ ps : List CareerPath, ps.length ≤ 3 →
      ((buildRows env ps.length 0 ps).map (fun r => r.2.1.found)).sum ≤ 100 := by
  intro ps hlen
  rcases ps with _ | ⟨a, _ | ⟨b, _ | ⟨c, _ | ⟨d, rest⟩⟩⟩⟩
  · simp [buildRows]
  · simp [buildRows, pathRow, pathFound]
  · cases hb : hasSub "junior".data (lowerStr b.title) <;>
      simp [buildRows, pathRow, pathFound, hb]
  · cases hb : hasSub "junior".data (lowerStr b.title) <;>
      cases hc : hasSub "junior".data (lowerStr c.title) <;>
        simp [buildRows, pathRow, pathFound, hb, hc]
  · simp at hlen

/-! ### Claim theorems -/

/-- C1, counterexample: a session of the dashboard's four mock career paths
(none of whose titles contains 'junior') gets per-path found counts
7 + 25 + 25 + 45 = 102, so the sum of the found counts reported in the
allocation summary exceeds the 100 jobs requested for the session. -/
theorem C1_counterexample :
    ¬ (sumFound (generateMockJobResults constEnv mockPaths).allocation_summary ≤ 100) := by
  decide

/-- C1, amended: for every session of at most three career paths, the sum of
the per-path found counts in the allocation summary is at most the 100 jobs
requested; with four or more paths the +20 bonus that generateMockJobResults
gives the last path can push the sum over the total. -/
theorem C1_sum_found_small_sessions :
    ∀ (env : MockEnv) (ps : List CareerPath), ps ≠ [] → ps.length ≤ 3 →
      sumFound (generateMockJobResults env ps).allocation_summary ≤ 100 := by
  intro env ps _ hlen
  have h1 := sumFound_foldl_le (buildRows env ps.length 0 ps) []
  have h2 := rowsFound_le_100 env ps hlen
  have h3 : sumFound ([] : List (Str × PathAlloc)) = 0 := rfl
  simp only [generateMockJobResults]
  omega

/-- Witness for C1: the two-path session satisfies the hypotheses and its
reported found counts sum to at most 100. -/
theorem C1_sum_found_small_sessions_witness :
    sumFound (generateMockJobResults constEnv twoPaths).allocation_summary ≤ 100 :=
  C1_sum_found_small_sessions constEnv twoPaths (by decide) (by decide)

/-- C3: every entry of the allocation summary of a non-empty session records
the same base quota, the integer division of the 100 requested jobs by the
number of career paths. -/
theorem C3_even_base_quota :
    ∀ (env : MockEnv) (ps : List CareerPath), ps ≠ [] →
      ∀ e ∈ (generateMockJobResults env ps).allocation_summary,
        e.2.requested = 100 / ps.length := by
  intro env ps _ e he
  simp only [generateMockJobResults] at he
  rcases mem_foldl_setKey Prod.fst (fun r : Str × PathAlloc × List MockJob => r.2.1) _ [] e he with h | ⟨r, hr, he2⟩
  · simp at h
  · rcases mem_buildRows hr with ⟨j, p, _, rfl⟩
    rw [he2]
    simp [pathRow]

/-- Witness for C3: in the concrete two-path session the Technical Project
Manager entry records requested = 100 / 2 = 50. -/
theorem C3_even_base_quota_witness :
    (("Technical Project Manager".data,
        ({ requested := 50, found := 15 } : PathAlloc)) : Str × PathAlloc).2.requested
      = 100 / twoPaths.length :=
  C3_even_base_quota constEnv twoPaths (by decide) _ (by decide)

/-- C4, counterexample: in the two-path session the last path's job list keeps
all 70 generated jobs even though only 50 were requested for it — the list is
not truncated to the requested count. -/
theorem C4_counterexample :
    (lookupKey "Senior Front-End Engineer".data
        (generateMockJobResults constEnv twoPaths).jobs_by_path).map List.length
      = some 70
    ∧ (lookupKey "Senior Front-End Engineer".data
        (generateMockJobResults constEnv twoPaths).allocation_summary).map PathAlloc.requested
      = some 50
    ∧ ¬ (70 ≤ 50) := by
  refine ⟨by decide, by decide, by decide⟩

/-- C4, amended: no truncation is applied — for distinct path titles, each
path's final job list has exactly its reported found count of entries, and
that count can exceed the path's requested count (the last path is given
requested + 20). -/
theorem C4_no_truncation_length_eq_found :
    ∀ (env : MockEnv) (ps : List CareerPath), (ps.map (·.title)).Nodup →
      ∀ t a jobs, (t, a) ∈ (generateMockJobResults env ps).allocation_summary →
        (t, jobs) ∈ (generateMockJobResults env ps).jobs_by_path →
        jobs.length = a.found := by
  intro env ps h
  exact jobs_length_eq_found env ps h

/-- Witness for C4: the Technical Project Manager list of the two-path session
has exactly its reported found count, 15. -/
theorem C4_no_truncation_length_eq_found_witness :
    ((List.range 15).map (fun i => mkJob constEnv tpmPath 0 i)).length
      = ({ requested := 50, found := 15 } : PathAlloc).found :=
  C4_no_truncation_length_eq_found constEnv twoPaths (by decide)
    "Technical Project Manager".data _ _ (by decide) (by decide)

/-- C5: for every session with distinct path titles, the sum of the found
counts over the allocation-summary entries equals the number of unique job
records produced, counted per path (per-path deduplication by composite key
leaves every generated list unchanged, since each path's generated jobs carry
pairwise distinct keys). -/
theorem C5_sum_found_eq_unique_jobs :
    ∀ (env : MockEnv) (ps : List CareerPath), ps ≠ [] → (ps.map (·.title)).Nodup →
      sumFound (generateMockJobResults env ps).allocation_summary
        = ((generateMockJobResults env ps).jobs_by_path.map
            (fun e => (dedupByKey MockJob.key e.2).length)).sum := by
  intro env ps _ h
  rw [allocation_summary_eq env ps h, jobs_by_path_eq env ps h]
  simp only [sumFound, List.map_map]
  congr 1
  refine List.map_congr_left ?_
  intro r hr
  simp only [Function.comp]
  rcases mem_buildRows hr with ⟨j, p, _, rfl⟩
  rw [dedup_row_jobs]
  exact (row_jobs_length env ps.length j p).symm

/-- Witness for C5: the concrete two-path session satisfies the hypotheses and
the reported found total equals its per-path unique-job count. -/
theorem C5_sum_found_eq_unique_jobs_witness :
    sumFound (generateMockJobResults constEnv twoPaths).allocation_summary
      = ((generateMockJobResults constEnv twoPaths).jobs_by_path.map
          (fun e => (dedupByKey MockJob.key e.2).length)).sum :=
  C5_sum_found_eq_unique_jobs constEnv twoPaths (by decide) (by decide)

/-- C6: deduplication by composite key is order-insensitive and collapses equal
keys — for every result list containing two distinct records with identical
composite keys, deduplicating the list or any permutation of it yields exactly
one record with that key. -/
theorem C6_dedup_unique_key :
    ∀ (l lp : List StandardizedJob) (a b : StandardizedJob),
      l.Perm lp → a ∈ l → b ∈ l → a ≠ b → a.key = b.key →
      (dedupByKey StandardizedJob.key lp).countP
          (fun x => decide (x.key = a.key)) = 1 := by
  intro l lp a _ hperm ha _ _ _
  have halp : a ∈ lp := hperm.mem_iff.mp ha
  have hk : a.key ∈ lp.map StandardizedJob.key :=
    List.mem_map_of_mem _ halp
  have hc := countP_dedupByKeyGo StandardizedJob.key a.key lp []
  simpa [dedupByKey, hk] using hc

/-- Witness for C6: two provider copies of one listing (urls differing only in
their query strings) in either order dedup to a single record with that key. -/
theorem C6_dedup_unique_key_witness :
    (dedupByKey StandardizedJob.key [dupJobB, dupJobA]).countP
        (fun x => decide (x.key = dupJobA.key)) = 1 :=
  C6_dedup_unique_key [dupJobA, dupJobB] [dupJobB, dupJobA] dupJobA dupJobB
    (List.Perm.swap dupJobB dupJobA []) (by decide) (by decide) (by decide)
    (by decide)

/-- C2: over every serialization of concurrent atomic reserve calls with
nonnegative amounts, cumulative spend never exceeds the budget ceiling, and
two calls whose combined reservation would overrun the remaining budget are
never both granted. -/
theorem C2_cost_ledger_safe :
    (∀ (l : CostLedger) (amounts : List ℚ), (∀ a ∈ amounts, 0 ≤ a) →
        l.spent ≤ l.ceiling → (runReserves l amounts).2.spent ≤ l.ceiling)
    ∧ (∀ (l : CostLedger) (a b : ℚ), 0 ≤ a → 0 ≤ b →
        l.ceiling < l.spent + a + b →
        ¬ ((runReserves l [a, b]).1 = [true, true])) := by
  constructor
  · intro l amounts _ h
    have hinv := runReserves_invariant amounts l h
    rw [← hinv.2]
    exact hinv.1
  · intro l a b _ _ hover
    by_cases h1 : l.spent + a ≤ l.ceiling
    · by_cases h2 : l.spent + a + b ≤ l.ceiling
      · linarith
      · simp [runReserves, CostLedger.reserve, h1, h2]
    · simp [runReserves, CostLedger.reserve, h1]

/-- Witness for C2: with a ceiling of 2, reserving 1 and then 2 stays within
the ceiling and the two calls are not both granted. -/
theorem C2_cost_ledger_safe_witness :
    (runReserves { spent := 0, ceiling := 2 } [1, 2]).2.spent ≤ (2 : ℚ)
    ∧ ¬ ((runReserves { spent := 0, ceiling := 2 } [1, 2]).1 = [true, true]) :=
  ⟨C2_cost_ledger_safe.1 { spent := 0, ceiling := 2 } [1, 2] (by norm_num) (by norm_num),
   C2_cost_ledger_safe.2 { spent := 0, ceiling := 2 } 1 2 (by norm_num) (by norm_num)
     (by norm_num)⟩

/-- C7, counterexample: the search_metadata of a concrete session is exactly
{search_strategy, deduplication, paths_searched} — the object's keys do not
include any total-cost field, although the claim requires the metadata to
contain the total cost spent. -/
theorem C7_counterexample :
    (generateMockJobResults constEnv onePath).search_metadata
      = { search_strategy := "smart_distribution".data
          deduplication := "first_path".data
          paths_searched := 1 }
    ∧ "total_cost".data ∉ searchMetadataKeys := by
  exact ⟨rfl, by decide⟩

/-- C7, amended: the session result has the shape {allocation_summary keyed by
the path titles, jobs_by_path keyed by the path titles, total_jobs_found equal
to the summary's found total, search_metadata} — where search_metadata carries
the strategy label "smart_distribution", the deduplication mode and the number
of paths searched, but no total-cost field. -/
theorem C7_result_shape :
    ∀ (env : MockEnv) (ps : List CareerPath), ps ≠ [] → (ps.map (·.title)).Nodup →
      (generateMockJobResults env ps).allocation_summary.map Prod.fst = ps.map (·.title)
      ∧ (generateMockJobResults env ps).jobs_by_path.map Prod.fst = ps.map (·.title)
      ∧ (generateMockJobResults env ps).total_jobs_found
          = sumFound (generateMockJobResults env ps).allocation_summary
      ∧ (generateMockJobResults env ps).search_metadata
          = { search_strategy := "smart_distribution".data
              deduplication := "first_path".data
              paths_searched := ps.length } := by
  intro env ps _ h
  exact ⟨summary_keys env ps h, byPath_keys env ps h, total_eq_sumFound env ps h, rfl⟩

/-- Witness for C7: the two-path session's allocation summary is keyed exactly
by the two path titles. -/
theorem C7_result_shape_witness :
    (generateMockJobResults constEnv twoPaths).allocation_summary.map Prod.fst
      = twoPaths.map (·.title) :=
  (C7_result_shape constEnv twoPaths (by decide) (by decide)).1

/-- C8: for every non-empty session with pairwise distinct titles, both maps
are keyed exactly by those titles, each path's job list length equals its
reported found count, and total_jobs_found is the sum of the found values. -/
theorem C8_result_consistency :
    ∀ (env : MockEnv) (ps : List CareerPath), ps ≠ [] → (ps.map (·.title)).Nodup →
      (generateMockJobResults env ps).allocation_summary.map Prod.fst = ps.map (·.title)
      ∧ (generateMockJobResults env ps).jobs_by_path.map Prod.fst = ps.map (·.title)
      ∧ (∀ t a jobs,
          (t, a) ∈ (generateMockJobResults env ps).allocation_summary →
          (t, jobs) ∈ (generateMockJobResults env ps).jobs_by_path →
          jobs.length = a.found)
      ∧ (generateMockJobResults env ps).total_jobs_found
          = sumFound (generateMockJobResults env ps).allocation_summary := by
  intro env ps _ h
  exact ⟨summary_keys env ps h, byPath_keys env ps h, jobs_length_eq_found env ps h,
    total_eq_sumFound env ps h⟩

/-- Witness for C8: in the two-path session the reported total equals the sum
of the found values of the allocation summary. -/
theorem C8_result_consistency_witness :
    (generateMockJobResults constEnv twoPaths).total_jobs_found
      = sumFound (generateMockJobResults constEnv twoPaths).allocation_summary :=
  (C8_result_consistency constEnv twoPaths (by decide) (by decide)).2.2.2

/-- C9: validateResume accepts a non-empty resume exactly when the number of
whitespace-separated tokens of the trimmed text lies between 100 and 2000
inclusive, and rejects the empty string with the required-field error. -/
theorem C9_resume_word_count :
    (∀ s : Str, s ≠ [] →
        (validateResume VALIDATION_RULES.resume s = none ↔
          100 ≤ (wordsOf (trimStr s)).length ∧ (wordsOf (trimStr s)).length ≤ 2000))
    ∧ validateResume VALIDATION_RULES.resume [] = some "Resume is required".data := by
  constructor
  · intro s hs
    simp only [validateResume, if_neg hs, jsWordCount]
    by_cases ht : (trimStr s).isEmpty
    · have hnil : trimStr s = [] := List.isEmpty_iff.mp ht
      rw [if_pos ht, hnil]
      have hw : wordsOf ([] : Str) = [] := by decide
      rw [hw]
      simp [VALIDATION_RULES]
    · rw [if_neg ht]
      simp only [VALIDATION_RULES]
      split
      · next hlt => simp; omega
      · split
        · next hgt => simp; omega
        · next h1 h2 => simp; omega
  · rfl

/-- Witness for C9: a concrete 100-word resume is non-empty and instantiates
the acceptance characterization. -/
theorem C9_resume_word_count_witness :
    resumeText ≠ []
    ∧ (validateResume VALIDATION_RULES.resume resumeText = none ↔
        100 ≤ (wordsOf (trimStr resumeText)).length
        ∧ (wordsOf (trimStr resumeText)).length ≤ 2000) :=
  ⟨by decide, C9_resume_word_count.1 resumeText (by decide)⟩

/-- C10: validateLinkedIn returns null exactly when the url matches the
LinkedIn profile regex, and the declared minLength of the rules is never
consulted — changing it to any value leaves the validator unchanged. -/
theorem C10_linkedin_pattern_only :
    (∀ u : Str, validateLinkedIn VALIDATION_RULES.linkedin u = none
        ↔ linkedinPattern u = true)
    ∧ ∀ (m : Nat) (u : Str),
        validateLinkedIn { VALIDATION_RULES.linkedin with minLength := m } u
          = validateLinkedIn VALIDATION_RULES.linkedin u := by
  constructor
  · intro u
    by_cases hu : u = []
    · subst hu
      simp only [validateLinkedIn, if_pos rfl]
      constructor
      · intro h; simp at h
      · intro h
        have : linkedinPattern [] = false := by decide
        rw [this] at h
        simp at h
    · simp only [validateLinkedIn, if_neg hu, VALIDATION_RULES]
      cases hp : linkedinPattern u <;> simp [hp]
  · intro m u
    rfl

end ProjectTaylor
